import Mathlib

/-!
Verification of the caching and base-path resolution layer of the
pulp_container registry plugin (src/pulp_container/app/cache.py),
as a shallow embedding in Lean.

Requests are modelled as structures carrying the attributes the cache
reads; responses as a tagged record mirroring the Django/DRF response
shapes the entry codec distinguishes; the backing store and the
distribution tables as explicit lists.
-/

namespace PulpCache

/-- The key-name enumeration: pulpcore's CacheKeys members `path`, `method`,
`host` plus the plugin's `ACCEPT_HEADER_KEY = "accept_header"` and
`QUERY_KEY = "query"`. -/
inductive CacheKeyName where
  | path
  | method
  | host
  | accept_header
  | query
deriving DecidableEq, Repr

/-- `RegistryCache.__init__` fixes `keys = (CacheKeys.path, CacheKeys.method,
ACCEPT_HEADER_KEY)`: the tuple of attributes actually joined into the key.
Note that `CacheKeys.host` is absent. -/
def registryCacheKeys : List CacheKeyName :=
  [CacheKeyName.path, CacheKeyName.method, CacheKeyName.accept_header]

/-- A request as seen by `RegistryContentCache.make_key` (aiohttp request):
`request.path`, `request.method`, `request.url.host`, and the list of all
`accept` header values from `request.headers.getall("accept", [])`. -/
structure ContentRequest where
  path : String
  method : String
  host : String
  accept : List String
deriving DecidableEq, Repr

/-- Lexicographic (code-point) comparison of character lists, the order Python
uses to compare `str` values. -/
def lexLeChars : List Char → List Char → Bool
  | [], _ => true
  | _ :: _, [] => false
  | a :: as, b :: bs =>
    if a < b then true
    else if b < a then false
    else lexLeChars as bs

/-- Python string comparison `a <= b` (lexicographic by code point). -/
def pyStrLe (a b : String) : Bool := lexLeChars a.data b.data

/-- The ascending Python string order as a proposition, for use with sorting. -/
def PyLe (a b : String) : Prop := pyStrLe a b = true

instance : DecidableRel PyLe := fun a b => Bool.decEq (pyStrLe a b) true

/-- The descending Python string order (Django's `order_by("-base_path")`). -/
def PyGe (a b : String) : Prop := pyStrLe b a = true

instance : DecidableRel PyGe := fun a b => Bool.decEq (pyStrLe b a) true

/-- Python's `sorted` on the list of accept values: lexicographic ascending
string order (insertion sort is stable, matching `sorted`). -/
def sortedStrings (l : List String) : List String :=
  l.insertionSort PyLe

/-- The `accept_header` component of the content-cache key:
`",".join(sorted(request.headers.getall("accept", [])))`. -/
def sortedAccept (l : List String) : String :=
  String.intercalate "," (sortedStrings l)

/-- `RegistryContentCache.make_key`: builds the dict
`{path: request.path, method: request.method, host: request.url.host,
accept_header: ",".join(sorted(...))}` and joins the values of
`self.keys` (i.e. `registryCacheKeys`) with `":"`. -/
def RegistryContentCache.make_key (r : ContentRequest) : String :=
  let accept_header := sortedAccept r.accept
  let all_keys : List (CacheKeyName × String) :=
    [(CacheKeyName.path, r.path), (CacheKeyName.method, r.method),
     (CacheKeyName.host, r.host), (CacheKeyName.accept_header, accept_header)]
  String.intercalate ":" (registryCacheKeys.map (fun k => ((all_keys.lookup k).getD "")))

/-- Modelled from the spec: a WSGI/Django request presents multiple instances
of one request header as a single comma-joined string in arrival order, which
is what `request.headers.get("accept", "")` returns. -/
def combinedHeader (vs : List String) : String := String.intercalate "," vs

/-- A request as seen by `RegistryApiCache.make_key` (Django request):
`request.path`, `request.method`, `request.get_host()`, and the single
combined accept header string `request.headers.get("accept", "")`. -/
structure ApiRequest where
  path : String
  method : String
  host : String
  accept : String
deriving DecidableEq, Repr

/-- `RegistryApiCache.make_key`: same dict shape, but the accept component is
the raw header string, taken as-is (no splitting, sorting or joining). -/
def RegistryApiCache.make_key (r : ApiRequest) : String :=
  let all_keys : List (CacheKeyName × String) :=
    [(CacheKeyName.path, r.path), (CacheKeyName.method, r.method),
     (CacheKeyName.host, r.host), (CacheKeyName.accept_header, r.accept)]
  String.intercalate ":" (registryCacheKeys.map (fun k => ((all_keys.lookup k).getD "")))

/-- A string avoids a character: the character occurs nowhere in its data. -/
def AvoidsChar (c : Char) (s : String) : Prop := c ∉ s.data

instance (c : Char) (s : String) : Decidable (AvoidsChar c s) := by
  unfold AvoidsChar; infer_instance

/-! ### Base-path resolution (`find_base_path_cached`)

The function's collaborators are made explicit: `cache_key` (a pulpcore
utility, kept as an abstract function argument `ck`), the backing store's
`cached.exists` check (the list of base keys with an existing partition),
and the domain-scoped distribution tables (lists of `base_path` strings for
concrete `ContainerDistribution`s and for
`ContainerPullThroughDistribution`s). -/

instance {ε α : Type} [DecidableEq ε] [DecidableEq α] : DecidableEq (Except ε α) := fun x y =>
  match x, y with
  | Except.error a, Except.error b =>
    if h : a = b then isTrue (by rw [h]) else isFalse (by simp [h])
  | Except.error _, Except.ok _ => isFalse (by simp)
  | Except.ok _, Except.error _ => isFalse (by simp)
  | Except.ok a, Except.ok b =>
    if h : a = b then isTrue (by rw [h]) else isFalse (by simp [h])

/-- The domain-scoped state `find_base_path_cached` reads. -/
structure ResolverEnv where
  cachedBaseKeys : List String
  distributions : List String
  pullThroughDistributions : List String
deriving Repr

/-- Python `a.startswith(b)` / Django's `__startswith` lookup: `b` is a
string prefix of `a` exactly when its character list is a list prefix. -/
def strStartsWith (a b : String) : Bool := b.data.isPrefixOf a.data

/-- The Django query
`filter(path__startswith=F("base_path")).order_by("-base_path").first()`:
keep pull-through base paths that are string-prefixes of the request path,
sort descending (lexicographically), take the first. -/
def pullThroughQuery (pt : List String) (path : String) : Option String :=
  ((pt.filter (fun bp => strStartsWith path bp)).insertionSort PyGe).head?

/-- `find_base_path_cached(request, cached)`: return the base key derived
from the path if a cache partition exists for it; otherwise the exact-match
concrete distribution's base path; otherwise the best pull-through prefix
match; otherwise `RepositoryNotFound(name=path)`, modelled as `.error path`. -/
def find_base_path_cached (ck : String → String) (env : ResolverEnv) (path : String) :
    Except String String :=
  let base_key := ck path
  if base_key ∈ env.cachedBaseKeys then Except.ok base_key
  else
    match env.distributions.find? (fun bp => bp == path) with
    | some distro => Except.ok (ck distro)
    | none =>
      match pullThroughQuery env.pullThroughDistributions path with
      | some distro => Except.ok (ck distro)
      | none => Except.error path

/-! ### Response model and the entry codec (`RegistryApiCache.make_entry`)

A response is a record tagged with the concrete Django/DRF class
`make_entry` dispatches on. `content` models the body; for a DRF `Response`
(`kind = drf`) the body is only accessible once the response has been
rendered (`rendered = true`): Django raises `ContentNotRenderedError` from
the `content` property otherwise. The renderer state fields exist only on
DRF responses and are ignored elsewhere. -/

inductive RespKind where
  | redirect
  | fileResponse
  | drf
  | http
  | stream
deriving DecidableEq, Repr

structure Resp where
  kind : RespKind
  headers : List (String × String)
  status : Nat
  filename : String
  rendered : Bool
  content : String
  accepted_renderer : String
  accepted_media_type : String
  content_type : String
  renderer_context : List (String × String)
deriving DecidableEq, Repr

/-- Django header names compare case-insensitively (ASCII lower-casing). -/
def headerNameEq (a b : String) : Bool :=
  a.data.map Char.toLower == b.data.map Char.toLower

/-- Read a header value (Django raises `KeyError`/returns a default when the
name is absent; the entries `make_entry` reads are always present, so the
default is immaterial). -/
def getHeader (hs : List (String × String)) (n : String) : String :=
  (((hs.find? (fun p => headerNameEq p.1 n))).map Prod.snd).getD ""

/-- `response.headers[n] = v`: Django's `ResponseHeaders.__setitem__` drops
any case-insensitive match for the name and stores the new pair. -/
def setHeader (hs : List (String × String)) (n v : String) : List (String × String) :=
  (hs.filter (fun p => !(headerNameEq p.1 n))) ++ [(n, v)]

/-- The serialised cache entry dict built by `make_entry`. -/
inductive EntryType where
  | Redirect
  | FileResponse
  | Response
deriving DecidableEq, Repr

structure Entry where
  headers : List (String × String)
  status : Nat
  expires : Option Nat
  type : EntryType
  redirect_to : String
  path : String
  content : String
deriving DecidableEq, Repr

/-- `RegistryApiCache.make_entry`, after the handler has produced `response`
(`now` is the value of `time.time()` at write time, `expires` the TTL
argument). The result is the served response paired with the entry passed to
`self.set` — `none` when the response shape is not cached (streams/errors).
Accessing `.content` of an unrendered DRF response raises
`ContentNotRenderedError`, modelled as `.error`; note that the
`response.render()` call in the source is commented out. -/
def make_entry (now : Nat) (expires : Option Nat) (response : Resp) :
    Except String (Resp × Option Entry) :=
  let entryHeaders := response.headers
  let entryStatus := response.status
  let entryExpires : Option Nat :=
    match expires with
    | some ttl => some (ttl + now)
    | none => none
  let response := { response with headers := setHeader response.headers "X-PULP-CACHE" "MISS" }
  match response.kind with
  | RespKind.redirect =>
    Except.ok (response,
      some { headers := entryHeaders, status := entryStatus, expires := entryExpires,
             type := EntryType.Redirect,
             redirect_to := getHeader response.headers "Location",
             path := "", content := "" })
  | RespKind.fileResponse =>
    Except.ok (response,
      some { headers := entryHeaders, status := entryStatus, expires := entryExpires,
             type := EntryType.FileResponse,
             redirect_to := "", path := response.filename, content := "" })
  | RespKind.drf =>
    let response := { response with
      accepted_renderer := "JSONRenderer",
      accepted_media_type := "application/json",
      content_type := getHeader response.headers "Content-Type",
      renderer_context := [] }
    if response.rendered then
      Except.ok (response,
        some { headers := entryHeaders, status := entryStatus, expires := entryExpires,
               type := EntryType.Response,
               redirect_to := "", path := "", content := response.content })
    else
      Except.error "ContentNotRenderedError"
  | RespKind.http =>
    Except.ok (response,
      some { headers := entryHeaders, status := entryStatus, expires := entryExpires,
             type := EntryType.Response,
             redirect_to := "", path := "", content := response.content })
  | RespKind.stream =>
    Except.ok (response, none)

/-! ### The static flatpak index cache (`FlatpakIndexStaticCache`) -/

/-- A request as seen by `FlatpakIndexStaticCache.make_key`: only
`request.query_params.urlencode()` is read, the other attributes are carried
to state independence results. -/
structure FlatpakRequest where
  path : String
  method : String
  host : String
  headers : List (String × String)
  query : String
deriving DecidableEq, Repr

/-- The keys tuple fixed by `FlatpakIndexStaticCache.__init__`:
`(QUERY_KEY,)`. -/
def flatpakCacheKeys : List CacheKeyName := [CacheKeyName.query]

/-- The base key fixed by `FlatpakIndexStaticCache.__init__`. -/
def flatpakBaseKey : String := "/index/static"

/-- `FlatpakIndexStaticCache.make_key`: the dict holds only the urlencoded
query, joined over `self.keys = (QUERY_KEY,)`. -/
def FlatpakIndexStaticCache.make_key (r : FlatpakRequest) : String :=
  let all_keys : List (CacheKeyName × String) := [(CacheKeyName.query, r.query)]
  String.intercalate ":" (flatpakCacheKeys.map (fun k => ((all_keys.lookup k).getD "")))

/-- One record of the backing key-value store, tagged with the base key used
for bulk invalidation. -/
structure StoreEntry where
  key : String
  base_key : String
  value : String
deriving DecidableEq, Repr

/-- Modelled from the spec: the Backing Store Adapter's
`set(key, value, ttl, baseKey)` — pulpcore's `SyncContentCache.set`, absent
from the sources — records the value under the key within the named base
key's partition (an idempotent full replacement of that key). -/
def storeSet (store : List StoreEntry) (k bk v : String) : List StoreEntry :=
  (store.filter (fun e => !(e.key == k && e.base_key == bk))) ++
    [{ key := k, base_key := bk, value := v }]

/-- Modelled from the spec: the adapter's `invalidate(baseKey)` — bulk
invalidation removing every entry stored under the base key. -/
def storeInvalidate (store : List StoreEntry) (bk : String) : List StoreEntry :=
  store.filter (fun e => !(e.base_key == bk))

/-- A write through the flatpak cache: pulpcore's `SyncContentCache` stores
under `self.base_key`, which `FlatpakIndexStaticCache.__init__` fixed to
`"/index/static"`. -/
def flatpakCacheSet (store : List StoreEntry) (r : FlatpakRequest) (v : String) :
    List StoreEntry :=
  storeSet store (FlatpakIndexStaticCache.make_key r) flatpakBaseKey v

/-! ## Theorems -/

/-- The Python string order is total. -/
theorem lexLeChars_total : ∀ as bs : List Char,
    lexLeChars as bs = true ∨ lexLeChars bs as = true
  | [], bs => Or.inl rfl
  | a :: as, [] => Or.inr rfl
  | a :: as, b :: bs => by
    simp only [lexLeChars]
    rcases lt_trichotomy a b with h | h | h
    · left; simp [h]
    · subst h; simpa [lt_irrefl] using lexLeChars_total as bs
    · right; simp [h]

/-- The Python string order is transitive. -/
theorem lexLeChars_trans : ∀ as bs cs : List Char,
    lexLeChars as bs = true → lexLeChars bs cs = true → lexLeChars as cs = true
  | [], _, _, _, _ => rfl
  | a :: as, [], _, h1, _ => by simp [lexLeChars] at h1
  | a :: as, b :: bs, [], _, h2 => by simp [lexLeChars] at h2
  | a :: as, b :: bs, c :: cs, h1, h2 => by
    simp only [lexLeChars] at h1 h2 ⊢
    rcases lt_trichotomy a b with hab | hab | hab
    · rcases lt_trichotomy b c with hbc | hbc | hbc
      · simp [lt_trans hab hbc]
      · subst hbc; simp [hab]
      · rw [if_neg (lt_asymm hbc), if_pos hbc] at h2; exact absurd h2 (by simp)
    · subst hab
      rcases lt_trichotomy a c with hac | hac | hac
      · simp [hac]
      · subst hac
        simp only [lt_irrefl, if_neg, ite_false] at h1 h2 ⊢
        exact lexLeChars_trans as bs cs h1 h2
      · rw [if_neg (lt_asymm hac), if_pos hac] at h2; exact absurd h2 (by simp)
    · rw [if_neg (lt_asymm hab), if_pos hab] at h1; exact absurd h1 (by simp)

/-- The Python string order is antisymmetric. -/
theorem lexLeChars_antisymm : ∀ as bs : List Char,
    lexLeChars as bs = true → lexLeChars bs as = true → as = bs
  | [], [], _, _ => rfl
  | [], b :: bs, _, h2 => by simp [lexLeChars] at h2
  | a :: as, [], h1, _ => by simp [lexLeChars] at h1
  | a :: as, b :: bs, h1, h2 => by
    simp only [lexLeChars] at h1 h2
    rcases lt_trichotomy a b with hab | hab | hab
    · rw [if_neg (lt_asymm hab), if_pos hab] at h2; exact absurd h2 (by simp)
    · subst hab
      simp only [lt_irrefl, if_neg, ite_false] at h1 h2
      exact congrArg (a :: ·) (lexLeChars_antisymm as bs h1 h2)
    · rw [if_neg (lt_asymm hab), if_pos hab] at h1; exact absurd h1 (by simp)

/-- The content-cache key is the colon-join of the three attributes named in
`self.keys`: path, method, sorted accept header. The host component of the
dict is dropped by the join. -/
theorem content_make_key_eq (r : ContentRequest) :
    RegistryContentCache.make_key r = r.path ++ ":" ++ r.method ++ ":" ++ sortedAccept r.accept :=
  rfl

/-- The API-cache key is the colon-join of path, method and the raw accept
header string. -/
theorem api_make_key_eq (r : ApiRequest) :
    RegistryApiCache.make_key r = r.path ++ ":" ++ r.method ++ ":" ++ r.accept :=
  rfl

/-- Splitting at a separator character absent from both left parts is
unambiguous. -/
theorem append_sep_inj {c : Char} : ∀ {a b t u : List Char}, c ∉ a → c ∉ b →
    a ++ c :: t = b ++ c :: u → a = b ∧ t = u := by
  intro a
  induction a with
  | nil =>
    intro b t u _ hb h
    cases b with
    | nil => simpa using h
    | cons x b =>
      simp only [List.nil_append, List.cons_append, List.cons.injEq] at h
      obtain ⟨rfl, -⟩ := h
      exact absurd (List.mem_cons_self c b) hb
  | cons x a ih =>
    intro b t u ha hb h
    cases b with
    | nil =>
      simp only [List.cons_append, List.nil_append, List.cons.injEq] at h
      obtain ⟨rfl, -⟩ := h
      exact absurd (List.mem_cons_self x a) ha
    | cons y b =>
      simp only [List.cons_append, List.cons.injEq] at h
      obtain ⟨rfl, h2⟩ := h
      have hr := ih (fun hc => ha (List.mem_cons_of_mem _ hc))
        (fun hc => hb (List.mem_cons_of_mem _ hc)) h2
      exact ⟨by rw [hr.1], hr.2⟩

/-- A three-way colon-join determines its components when the first two are
colon-free (the last component is whatever remains). -/
theorem key_join_inj {p1 m1 s1 p2 m2 s2 : String}
    (hp1 : AvoidsChar ':' p1) (hm1 : AvoidsChar ':' m1)
    (hp2 : AvoidsChar ':' p2) (hm2 : AvoidsChar ':' m2)
    (h : p1 ++ ":" ++ m1 ++ ":" ++ s1 = p2 ++ ":" ++ m2 ++ ":" ++ s2) :
    p1 = p2 ∧ m1 = m2 ∧ s1 = s2 := by
  have hcolon : (":" : String).data = [':'] := rfl
  have hd := congrArg String.data h
  simp only [String.data_append, hcolon, List.append_assoc, List.singleton_append] at hd
  obtain ⟨e1, hd2⟩ := append_sep_inj hp1 hp2 hd
  obtain ⟨e2, e3⟩ := append_sep_inj hm1 hm2 hd2
  exact ⟨String.toList_inj.mp e1, String.toList_inj.mp e2, String.toList_inj.mp e3⟩

/-- C1 (amended). The attribute set actually joined into the content-cache
key is `{path, method, acceptHeader}` — `RegistryCache.__init__` leaves
`host` out of `self.keys`, so host never reaches the key. Over that set the
key is deterministic and, provided path and method avoid the `":"` join
delimiter, injective: keys agree exactly when path, method and the sorted
comma-joined accept value all agree. -/
theorem c1_content_key_determinism_injectivity (r1 r2 : ContentRequest)
    (hp1 : AvoidsChar ':' r1.path) (hm1 : AvoidsChar ':' r1.method)
    (hp2 : AvoidsChar ':' r2.path) (hm2 : AvoidsChar ':' r2.method) :
    RegistryContentCache.make_key r1 = RegistryContentCache.make_key r2 ↔
      (r1.path = r2.path ∧ r1.method = r2.method ∧
        sortedAccept r1.accept = sortedAccept r2.accept) := by
  constructor
  · intro h
    rw [content_make_key_eq, content_make_key_eq] at h
    exact key_join_inj hp1 hm1 hp2 hm2 h
  · rintro ⟨h1, h2, h3⟩
    rw [content_make_key_eq, content_make_key_eq, h1, h2, h3]

/-- C1 (counterexample). Two requests identical in path, method and accept
but differing in host — an attribute the claim lists as active — receive the
same content-cache key, refuting the claimed injectivity over
`{path, method, host, acceptHeader}`. -/
theorem c1_counterexample :
    (⟨"/v2/x", "GET", "host-one", ["application/json"]⟩ : ContentRequest).host ≠
        (⟨"/v2/x", "GET", "host-two", ["application/json"]⟩ : ContentRequest).host ∧
      RegistryContentCache.make_key ⟨"/v2/x", "GET", "host-one", ["application/json"]⟩ =
        RegistryContentCache.make_key ⟨"/v2/x", "GET", "host-two", ["application/json"]⟩ := by
  decide

/-- C1 (witness): the determinism/injectivity equivalence evaluated at two
concrete requests with delimiter-free attributes. -/
theorem c1_witness :
    (AvoidsChar ':' "/v2/x" ∧ AvoidsChar ':' "GET" ∧ AvoidsChar ':' "/v2/y") ∧
      (RegistryContentCache.make_key ⟨"/v2/x", "GET", "h1", ["a"]⟩ =
          RegistryContentCache.make_key ⟨"/v2/y", "GET", "h2", ["a"]⟩ ↔
        ("/v2/x" = "/v2/y" ∧ "GET" = "GET" ∧ sortedAccept ["a"] = sortedAccept ["a"])) :=
  ⟨⟨by decide, by decide, by decide⟩,
    c1_content_key_determinism_injectivity ⟨"/v2/x", "GET", "h1", ["a"]⟩
      ⟨"/v2/y", "GET", "h2", ["a"]⟩ (by decide) (by decide) (by decide) (by decide)⟩

/-- Sorting is invariant under permutation of the input (for the Python
string order used by `sorted`). -/
theorem sortedStrings_perm_invariant {l1 l2 : List String} (h : List.Perm l1 l2) :
    sortedStrings l1 = sortedStrings l2 := by
  haveI : IsTotal String PyLe := ⟨fun a b => lexLeChars_total a.data b.data⟩
  haveI : IsTrans String PyLe := ⟨fun a b c h1 h2 => lexLeChars_trans a.data b.data c.data h1 h2⟩
  haveI : IsAntisymm String PyLe :=
    ⟨fun a b h1 h2 => String.toList_inj.mp (lexLeChars_antisymm a.data b.data h1 h2)⟩
  exact List.eq_of_perm_of_sorted
    (((List.perm_insertionSort PyLe l1).trans h).trans (List.perm_insertionSort PyLe l2).symm)
    (List.sorted_insertionSort PyLe l1) (List.sorted_insertionSort PyLe l2)

/-- C5 (amended). Accept-header order independence holds for the
content-serving cache: its `make_key` sorts the accept values before
comma-joining them, so any reordering of the accept header instances leaves
the key unchanged. (The structured-API cache does not share this property;
see the counterexample.) -/
theorem c5_content_accept_order_independent (r1 r2 : ContentRequest)
    (hpath : r1.path = r2.path) (hmethod : r1.method = r2.method)
    (haccept : List.Perm r1.accept r2.accept) :
    RegistryContentCache.make_key r1 = RegistryContentCache.make_key r2 := by
  rw [content_make_key_eq, content_make_key_eq, hpath, hmethod]
  unfold sortedAccept
  rw [sortedStrings_perm_invariant haccept]

/-- C5 (counterexample). The structured-API cache's `make_key` embeds the
raw combined accept header string without sorting, so the header orders
`a,b` and `b,a` (the same two accept values as separate header instances)
produce different keys — the claim fails for `RegistryApiCache`. -/
theorem c5_counterexample :
    combinedHeader ["a", "b"] = "a,b" ∧ combinedHeader ["b", "a"] = "b,a" ∧
      RegistryApiCache.make_key ⟨"/v2/x", "GET", "h", combinedHeader ["a", "b"]⟩ ≠
        RegistryApiCache.make_key ⟨"/v2/x", "GET", "h", combinedHeader ["b", "a"]⟩ := by
  decide

/-- C5 (witness): key equality of two concrete content-cache requests whose
accept lists are reorderings of each other. -/
theorem c5_witness :
    RegistryContentCache.make_key ⟨"/v2/x", "GET", "h1", ["a", "b"]⟩ =
      RegistryContentCache.make_key ⟨"/v2/x", "GET", "h2", ["b", "a"]⟩ :=
  c5_content_accept_order_independent ⟨"/v2/x", "GET", "h1", ["a", "b"]⟩
    ⟨"/v2/x", "GET", "h2", ["b", "a"]⟩ rfl rfl (by decide)

/-! ### Branch equations for `find_base_path_cached` -/

/-- Step 1: an existing cache partition short-circuits resolution. -/
theorem find_eq_of_cached {ck : String → String} {env : ResolverEnv} {path : String}
    (h : ck path ∈ env.cachedBaseKeys) :
    find_base_path_cached ck env path = Except.ok (ck path) := by
  simp only [find_base_path_cached]
  rw [if_pos h]

/-- Step 2: the exact-match concrete distribution. -/
theorem find_eq_of_exact {ck : String → String} {env : ResolverEnv} {path d : String}
    (hc : ck path ∉ env.cachedBaseKeys)
    (hfind : env.distributions.find? (fun b => b == path) = some d) :
    find_base_path_cached ck env path = Except.ok (ck d) := by
  simp only [find_base_path_cached]
  rw [if_neg hc, hfind]

/-- Step 3: the pull-through prefix query result. -/
theorem find_eq_of_pullthrough {ck : String → String} {env : ResolverEnv} {path b : String}
    (hc : ck path ∉ env.cachedBaseKeys)
    (hfind : env.distributions.find? (fun x => x == path) = none)
    (hq : pullThroughQuery env.pullThroughDistributions path = some b) :
    find_base_path_cached ck env path = Except.ok (ck b) := by
  simp only [find_base_path_cached]
  rw [if_neg hc, hfind, hq]

/-- Step 4: `RepositoryNotFound`. -/
theorem find_eq_of_nomatch {ck : String → String} {env : ResolverEnv} {path : String}
    (hc : ck path ∉ env.cachedBaseKeys)
    (hfind : env.distributions.find? (fun x => x == path) = none)
    (hq : pullThroughQuery env.pullThroughDistributions path = none) :
    find_base_path_cached ck env path = Except.error path := by
  simp only [find_base_path_cached]
  rw [if_neg hc, hfind, hq]

/-- The pull-through query returns the lexicographically greatest matching
base path: if `bp` matches and dominates every match, the query yields `bp`. -/
theorem pullThroughQuery_eq_greatest {pt : List String} {path bp : String}
    (hmem : bp ∈ pt) (hpre : strStartsWith path bp = true)
    (hmax : ∀ b ∈ pt, strStartsWith path b = true → pyStrLe b bp = true) :
    pullThroughQuery pt path = some bp := by
  haveI : IsTotal String PyGe := ⟨fun a b => lexLeChars_total b.data a.data⟩
  haveI : IsTrans String PyGe := ⟨fun a b c h1 h2 => lexLeChars_trans c.data b.data a.data h2 h1⟩
  have hfl : bp ∈ List.filter (fun b => strStartsWith path b) pt :=
    List.mem_filter.mpr ⟨hmem, hpre⟩
  have hperm := List.perm_insertionSort PyGe (List.filter (fun b => strStartsWith path b) pt)
  have hsorted := List.sorted_insertionSort PyGe (List.filter (fun b => strStartsWith path b) pt)
  have hmemsl : bp ∈ List.insertionSort PyGe (List.filter (fun b => strStartsWith path b) pt) :=
    hperm.mem_iff.mpr hfl
  unfold pullThroughQuery
  cases hslc : List.insertionSort PyGe (List.filter (fun b => strStartsWith path b) pt) with
  | nil => rw [hslc] at hmemsl; cases hmemsl
  | cons hd tl =>
    rw [hslc] at hmemsl hsorted hperm
    have hhfl : hd ∈ List.filter (fun b => strStartsWith path b) pt :=
      hperm.subset (List.mem_cons_self hd tl)
    have hle : pyStrLe hd bp = true :=
      hmax hd (List.mem_filter.mp hhfl).1 (List.mem_filter.mp hhfl).2
    rcases List.mem_cons.mp hmemsl with heq | hbt
    · rw [List.head?_cons, heq]
    · have hge : pyStrLe bp hd = true := List.rel_of_sorted_cons hsorted bp hbt
      have heq : hd = bp := String.toList_inj.mp (lexLeChars_antisymm _ _ hle hge)
      rw [List.head?_cons, heq]

/-- C2 (amended). When no cache partition exists under the key derived from
the request path and no concrete distribution's base path equals the path,
resolution selects the pull-through distribution whose base path is a string
prefix of the path and lexicographically greatest among such prefixes. -/
theorem c2_pullthrough_greatest_prefix (ck : String → String) (env : ResolverEnv)
    (path bp : String)
    (hcache : ck path ∉ env.cachedBaseKeys)
    (hexact : path ∉ env.distributions)
    (hmem : bp ∈ env.pullThroughDistributions)
    (hpre : strStartsWith path bp = true)
    (hmax : ∀ b ∈ env.pullThroughDistributions, strStartsWith path b = true →
      pyStrLe b bp = true) :
    find_base_path_cached ck env path = Except.ok (ck bp) := by
  have hfind : env.distributions.find? (fun x => x == path) = none := by
    rw [List.find?_eq_none]
    intro x hx hbeq
    exact hexact (eq_of_beq hbeq ▸ hx)
  exact find_eq_of_pullthrough hcache hfind (pullThroughQuery_eq_greatest hmem hpre hmax)

/-- C2 (counterexample). With pull-through base paths `"a"` and `"a/b"`, a
request for `"a/b/c"` resolves to the pre-existing cache partition
`"a/b/c"`, not to `"a/b"`: the claim's tie-break is bypassed whenever a
partition already exists for the key derived from the path. -/
theorem c2_counterexample :
    strStartsWith "a/b/c" "a" = true ∧ strStartsWith "a/b/c" "a/b" = true ∧
      (⟨["a/b/c"], [], ["a", "a/b"]⟩ : ResolverEnv).distributions = [] ∧
      find_base_path_cached id ⟨["a/b/c"], [], ["a", "a/b"]⟩ "a/b/c" ≠ Except.ok "a/b" ∧
      find_base_path_cached id ⟨["a/b/c"], [], ["a", "a/b"]⟩ "a/b/c" = Except.ok "a/b/c" := by
  decide

/-- C2 (witness): the spec's own example — pull-through base paths `"a"` and
`"a/b"`, request path `"a/b/c"`, empty cache — resolves to `"a/b"`. -/
theorem c2_witness :
    find_base_path_cached id ⟨[], [], ["a", "a/b"]⟩ "a/b/c" = Except.ok (id "a/b") :=
  c2_pullthrough_greatest_prefix id ⟨[], [], ["a", "a/b"]⟩ "a/b/c" "a/b"
    (by decide) (by decide) (by decide) (by decide) (by decide)

/-- The pull-through query is empty exactly when no pull-through base path
is a prefix of the request path. -/
theorem pullThroughQuery_eq_none_iff {pt : List String} {path : String} :
    pullThroughQuery pt path = none ↔ ∀ bp ∈ pt, strStartsWith path bp = false := by
  unfold pullThroughQuery
  rw [List.head?_eq_none_iff]
  constructor
  · intro h bp hbp
    have hp := List.perm_insertionSort PyGe (List.filter (fun b => strStartsWith path b) pt)
    rw [h] at hp
    have hfl : List.filter (fun b => strStartsWith path b) pt = [] := hp.symm.eq_nil
    have := List.filter_eq_nil_iff.mp hfl bp hbp
    simpa using this
  · intro h
    have hfl : List.filter (fun b => strStartsWith path b) pt = [] :=
      List.filter_eq_nil_iff.mpr (fun bp hbp => by rw [h bp hbp]; exact (by decide))
    rw [hfl]
    exact (List.perm_insertionSort PyGe []).eq_nil

/-- C3. Resolution fails, with `RepositoryNotFound` carrying exactly the
request path, precisely when no cache partition exists under the derived
key, no concrete distribution's base path equals the path, and no
pull-through distribution's base path is a prefix of the path; any error the
function raises carries the request path. -/
theorem c3_repository_not_found_iff (ck : String → String) (env : ResolverEnv) (path : String) :
    (find_base_path_cached ck env path = Except.error path ↔
      (ck path ∉ env.cachedBaseKeys ∧ path ∉ env.distributions ∧
        ∀ bp ∈ env.pullThroughDistributions, strStartsWith path bp = false)) ∧
    (∀ q, find_base_path_cached ck env path = Except.error q → q = path) := by
  by_cases hc : ck path ∈ env.cachedBaseKeys
  · rw [find_eq_of_cached hc]
    refine ⟨⟨fun h => Except.noConfusion h, fun h => absurd hc h.1⟩, fun q h => Except.noConfusion h⟩
  cases hfind : env.distributions.find? (fun x => x == path) with
  | some d =>
    rw [find_eq_of_exact hc hfind]
    have hdeq : d = path := eq_of_beq (by simpa using List.find?_some hfind)
    have hdmem : path ∈ env.distributions := hdeq ▸ List.mem_of_find?_eq_some hfind
    exact ⟨⟨fun h => Except.noConfusion h, fun h => absurd hdmem h.2.1⟩,
      fun q h => Except.noConfusion h⟩
  | none =>
    have hnd : path ∉ env.distributions := by
      intro hmem
      exact List.find?_eq_none.mp hfind path hmem (by simp)
    cases hq : pullThroughQuery env.pullThroughDistributions path with
    | some b =>
      rw [find_eq_of_pullthrough hc hfind hq]
      have hbmem : b ∈ List.insertionSort PyGe
          (List.filter (fun x => strStartsWith path x) env.pullThroughDistributions) :=
        List.mem_of_mem_head? hq
      have hbfl := (List.perm_insertionSort PyGe _).subset hbmem
      have hbpre : strStartsWith path b = true := List.of_mem_filter hbfl
      refine ⟨⟨fun h => Except.noConfusion h, fun h => ?_⟩, fun q h => Except.noConfusion h⟩
      have := h.2.2 b (List.mem_filter.mp hbfl).1
      rw [hbpre] at this
      exact absurd this (by decide)
    | none =>
      rw [find_eq_of_nomatch hc hfind hq]
      exact ⟨⟨fun _ => ⟨hc, hnd, pullThroughQuery_eq_none_iff.mp hq⟩, fun _ => rfl⟩,
        fun q h => (Except.error.inj h).symm⟩

/-- C3 (witness): a request path with no partition, no exact distribution
and no pull-through prefix fails with `RepositoryNotFound("unknown/repo")`. -/
theorem c3_witness :
    find_base_path_cached id ⟨[], ["other"], ["pull/x"]⟩ "unknown/repo" =
      Except.error "unknown/repo" :=
  ((c3_repository_not_found_iff id ⟨[], ["other"], ["pull/x"]⟩ "unknown/repo").1).mpr
    (by decide)

/-- C7. When the backing store already holds a partition under the base key
derived from the request path, resolution returns that key at once, for
every state of the distribution tables — no exact-match lookup, no
pull-through search, and no re-validation can influence the result, so a
stale partition reference is returned as-is. -/
theorem c7_short_circuit (ck : String → String) (cached distros pullthrough : List String)
    (path : String) (h : ck path ∈ cached) :
    find_base_path_cached ck ⟨cached, distros, pullthrough⟩ path = Except.ok (ck path) :=
  find_eq_of_cached h

/-- C7 (witness): the partition `"a/b/c"` exists; resolution returns it even
though the distribution tables would resolve the path to the pull-through
base `"a"`. -/
theorem c7_witness :
    find_base_path_cached id ⟨["a/b/c"], ["other"], ["a"]⟩ "a/b/c" = Except.ok (id "a/b/c") :=
  c7_short_circuit id ["a/b/c"] ["other"] ["a"] "a/b/c" (by decide)

/-! ### Header lemmas for the entry codec -/

theorem headerNameEq_refl (n : String) : headerNameEq n n = true := by
  simp [headerNameEq]

/-- Case-insensitive equality with `n` transfers inequality with `m`. -/
theorem headerNameEq_trans_ne {x n m : String} (h1 : headerNameEq x n = true)
    (h2 : headerNameEq n m = false) : headerNameEq x m = false := by
  unfold headerNameEq at h1 h2 ⊢
  have e1 := eq_of_beq h1
  rw [e1]
  exact h2

/-- Filtering with a predicate that only removes non-matches does not change
the first match. -/
theorem find?_filter_of_imp {α} {p q : α → Bool} (l : List α)
    (h : ∀ x, q x = false → p x = false) :
    (l.filter q).find? p = l.find? p := by
  induction l with
  | nil => rfl
  | cons a tl ih =>
    cases hq : q a with
    | false =>
      rw [List.filter_cons_of_neg (by simp [hq]), List.find?_cons_of_neg tl (by simp [h a hq]), ih]
    | true =>
      rw [List.filter_cons_of_pos hq]
      cases hp : p a with
      | true =>
        rw [List.find?_cons_of_pos _ hp, List.find?_cons_of_pos tl hp]
      | false =>
        rw [List.find?_cons_of_neg _ (by simp [hp]), List.find?_cons_of_neg tl (by simp [hp]), ih]

/-- Overwriting the marker header leaves every other header readable with
its original value. -/
theorem getHeader_setHeader_other {hs : List (String × String)} {n v m : String}
    (h : headerNameEq n m = false) :
    getHeader (setHeader hs n v) m = getHeader hs m := by
  unfold getHeader setHeader
  rw [List.find?_append]
  have h1 : (hs.filter (fun p => !(headerNameEq p.1 n))).find? (fun p => headerNameEq p.1 m) =
      hs.find? (fun p => headerNameEq p.1 m) := by
    apply find?_filter_of_imp
    intro x hx
    have hxn : headerNameEq x.1 n = true := by simpa using hx
    exact headerNameEq_trans_ne hxn h
  have h2 : ([(n, v)].find? (fun p => headerNameEq p.1 m)) = none := by
    rw [List.find?_cons_of_neg _ (by simp [h])]
    rfl
  rw [h1, h2, Option.or_none]

/-- Reading back the header just set yields the value set. -/
theorem getHeader_setHeader_self (hs : List (String × String)) (n v : String) :
    getHeader (setHeader hs n v) n = v := by
  unfold getHeader setHeader
  rw [List.find?_append]
  have h1 : (hs.filter (fun p => !(headerNameEq p.1 n))).find? (fun p => headerNameEq p.1 n) =
      none := by
    rw [List.find?_eq_none]
    intro x hx
    have := List.of_mem_filter hx
    simp only [Bool.not_eq_true'] at this
    simp [this]
  have h2 : ([(n, v)].find? (fun p => headerNameEq p.1 n)) = some (n, v) :=
    List.find?_cons_of_pos _ (headerNameEq_refl n)
  rw [h1, h2]
  rfl

/-! ### Entry codec theorems -/

/-- C6. Whenever `make_entry` stores an entry, its `expires` field is
`now + ttl` computed at write time when a TTL is given, and the explicit
`None` sentinel when the TTL is `None`. -/
theorem c6_expiry_computed_at_write (now : Nat) (ttl : Option Nat) (r r2 : Resp) (e : Entry)
    (h : make_entry now ttl r = Except.ok (r2, some e)) :
    e.expires = Option.map (fun t => now + t) ttl := by
  obtain ⟨kind, headers, status, filename, rendered, content, ar, amt, ct, rc⟩ := r
  cases kind <;> simp only [make_entry] at h
  case redirect | fileResponse | http =>
    obtain ⟨-, he⟩ := Prod.mk.injEq .. ▸ (Except.ok.inj h)
    rw [← Option.some.inj he]
    cases ttl with
    | none => rfl
    | some t => simpa using Nat.add_comm t now
  case drf =>
    cases rendered with
    | false => exact Except.noConfusion h
    | true =>
      obtain ⟨-, he⟩ := Prod.mk.injEq .. ▸ (Except.ok.inj h)
      rw [← Option.some.inj he]
      cases ttl with
      | none => rfl
      | some t => simpa using Nat.add_comm t now
  case stream =>
    obtain ⟨-, he⟩ := Prod.mk.injEq .. ▸ (Except.ok.inj h)
    exact Option.noConfusion he

/-- C6 (witness): a stored redirect entry written at time 5 with TTL 100
carries `expires = 105`; the entry with TTL `None` carries the sentinel. -/
theorem c6_witness :
    (⟨[("Location", "http://x")], 302, some 105, EntryType.Redirect, "http://x", "", ""⟩ :
        Entry).expires = Option.map (fun t => 5 + t) (some 100) :=
  c6_expiry_computed_at_write 5 (some 100)
    ⟨RespKind.redirect, [("Location", "http://x")], 302, "", false, "", "", "", "", []⟩
    ⟨RespKind.redirect, [("Location", "http://x"), ("X-PULP-CACHE", "MISS")], 302, "", false,
      "", "", "", "", []⟩
    ⟨[("Location", "http://x")], 302, some 105, EntryType.Redirect, "http://x", "", ""⟩
    (by decide)

/-- C8. For every response `make_entry` stores, the stored entry's headers
are the handler's original headers — captured before the marker is applied —
while the live response served to the client carries the original headers
with the cache-status marker `X-PULP-CACHE` set to `MISS`. -/
theorem c8_stored_headers_premarker (now : Nat) (ttl : Option Nat) (r r2 : Resp) (e : Entry)
    (h : make_entry now ttl r = Except.ok (r2, some e)) :
    e.headers = r.headers ∧
      r2.headers = setHeader r.headers "X-PULP-CACHE" "MISS" ∧
      getHeader r2.headers "X-PULP-CACHE" = "MISS" := by
  obtain ⟨kind, headers, status, filename, rendered, content, ar, amt, ct, rc⟩ := r
  cases kind <;> simp only [make_entry] at h
  case redirect | fileResponse | http =>
    obtain ⟨hr, he⟩ := Prod.mk.injEq .. ▸ (Except.ok.inj h)
    rw [← Option.some.inj he, ← hr]
    exact ⟨rfl, rfl, getHeader_setHeader_self headers "X-PULP-CACHE" "MISS"⟩
  case drf =>
    cases rendered with
    | false => exact Except.noConfusion h
    | true =>
      obtain ⟨hr, he⟩ := Prod.mk.injEq .. ▸ (Except.ok.inj h)
      rw [← Option.some.inj he, ← hr]
      exact ⟨rfl, rfl, getHeader_setHeader_self headers "X-PULP-CACHE" "MISS"⟩
  case stream =>
    obtain ⟨-, he⟩ := Prod.mk.injEq .. ▸ (Except.ok.inj h)
    exact Option.noConfusion he

/-- C8 (witness): the stored/served header split evaluated on a concrete
redirect response. -/
theorem c8_witness :
    (⟨[("Location", "http://x")], 302, some 105, EntryType.Redirect, "http://x", "", ""⟩ :
        Entry).headers = [("Location", "http://x")] ∧
      (⟨RespKind.redirect, [("Location", "http://x"), ("X-PULP-CACHE", "MISS")], 302, "", false,
          "", "", "", "", []⟩ : Resp).headers =
        setHeader [("Location", "http://x")] "X-PULP-CACHE" "MISS" ∧
      getHeader (⟨RespKind.redirect, [("Location", "http://x"), ("X-PULP-CACHE", "MISS")], 302,
          "", false, "", "", "", "", []⟩ : Resp).headers "X-PULP-CACHE" = "MISS" :=
  c8_stored_headers_premarker 5 (some 100)
    ⟨RespKind.redirect, [("Location", "http://x")], 302, "", false, "", "", "", "", []⟩
    ⟨RespKind.redirect, [("Location", "http://x"), ("X-PULP-CACHE", "MISS")], 302, "", false,
      "", "", "", "", []⟩
    ⟨[("Location", "http://x")], 302, some 105, EntryType.Redirect, "http://x", "", ""⟩
    (by decide)

/-- C9. For a structured (DRF) response that `make_entry` serves, the live
response object's rendering state is overwritten before serving: the
accepted renderer becomes the JSON renderer, the accepted media type
`application/json`, the content type is re-read from the `Content-Type`
header, and the renderer context is cleared. -/
theorem c9_drf_renderer_state_overwritten (now : Nat) (ttl : Option Nat) (r r2 : Resp) (e : Entry)
    (hk : r.kind = RespKind.drf)
    (h : make_entry now ttl r = Except.ok (r2, some e)) :
    r2.accepted_renderer = "JSONRenderer" ∧
      r2.accepted_media_type = "application/json" ∧
      r2.content_type = getHeader r.headers "Content-Type" ∧
      r2.renderer_context = [] := by
  obtain ⟨kind, headers, status, filename, rendered, content, ar, amt, ct, rc⟩ := r
  have hk2 : kind = RespKind.drf := hk
  subst hk2
  simp only [make_entry] at h
  cases rendered with
  | false => exact Except.noConfusion h
  | true =>
    obtain ⟨hr, -⟩ := Prod.mk.injEq .. ▸ (Except.ok.inj h)
    rw [← hr]
    refine ⟨rfl, rfl, ?_, rfl⟩
    exact getHeader_setHeader_other (by decide)

/-- C9 (witness): the renderer-state overwrite evaluated on a concrete
rendered DRF response whose handler had set different renderer state. -/
theorem c9_witness :
    (⟨RespKind.drf, [("Content-Type", "application/json"), ("X-PULP-CACHE", "MISS")], 200, "",
        true, "{}", "JSONRenderer", "application/json", "application/json", []⟩ :
        Resp).accepted_renderer = "JSONRenderer" ∧
      (⟨RespKind.drf, [("Content-Type", "application/json"), ("X-PULP-CACHE", "MISS")], 200, "",
          true, "{}", "JSONRenderer", "application/json", "application/json", []⟩ :
          Resp).accepted_media_type = "application/json" ∧
      (⟨RespKind.drf, [("Content-Type", "application/json"), ("X-PULP-CACHE", "MISS")], 200, "",
          true, "{}", "JSONRenderer", "application/json", "application/json", []⟩ :
          Resp).content_type =
        getHeader [("Content-Type", "application/json")] "Content-Type" ∧
      (⟨RespKind.drf, [("Content-Type", "application/json"), ("X-PULP-CACHE", "MISS")], 200, "",
          true, "{}", "JSONRenderer", "application/json", "application/json", []⟩ :
          Resp).renderer_context = [] :=
  c9_drf_renderer_state_overwritten 0 none
    ⟨RespKind.drf, [("Content-Type", "application/json")], 200, "", true, "{}", "BrowsableAPI",
      "text/html", "text/html", [("view", "x")]⟩
    ⟨RespKind.drf, [("Content-Type", "application/json"), ("X-PULP-CACHE", "MISS")], 200, "",
      true, "{}", "JSONRenderer", "application/json", "application/json", []⟩
    ⟨[("Content-Type", "application/json")], 200, none, EntryType.Response, "", "", "{}"⟩
    (by decide) (by decide)

/-- C4 (code evaluated at the failing input). The `response.render()` call
in `make_entry` is commented out, so a structured (DRF) response that has
not been rendered reaches the `response.content` read unrendered and raises
`ContentNotRenderedError` instead of capturing the rendered body. -/
theorem c4_unrendered_structured_response_fails :
    make_entry 0 (some 600)
        ⟨RespKind.drf, [("Content-Type", "application/json")], 200, "", false, "", "handler",
          "text/html", "text/html", []⟩ =
      Except.error "ContentNotRenderedError" := by
  decide

/-! ### The static flatpak index cache -/

/-- The flatpak static cache key is exactly the urlencoded query string. -/
theorem flatpak_make_key_eq (r : FlatpakRequest) :
    FlatpakIndexStaticCache.make_key r = r.query :=
  rfl

/-- C10. The static-index cache keys solely on the urlencoded query string —
requests agreeing on the query collide regardless of path, method, host or
headers — its base key is the fixed `"/index/static"`, and bulk invalidation
of that base key erases whatever the cache stored. -/
theorem c10_flatpak_static_cache :
    (∀ r1 r2 : FlatpakRequest, r1.query = r2.query →
        FlatpakIndexStaticCache.make_key r1 = FlatpakIndexStaticCache.make_key r2) ∧
      flatpakBaseKey = "/index/static" ∧
      (∀ (store : List StoreEntry) (r : FlatpakRequest) (v : String),
        storeInvalidate (flatpakCacheSet store r v) flatpakBaseKey =
          storeInvalidate store flatpakBaseKey) := by
  refine ⟨?_, rfl, ?_⟩
  · intro r1 r2 h
    rw [flatpak_make_key_eq, flatpak_make_key_eq, h]
  · intro store r v
    unfold storeInvalidate flatpakCacheSet storeSet
    rw [List.filter_append, List.filter_filter]
    have hlast : List.filter (fun e : StoreEntry => !(e.base_key == flatpakBaseKey))
        ([{ key := FlatpakIndexStaticCache.make_key r, base_key := flatpakBaseKey, value := v }] :
          List StoreEntry) = [] := by
      simp
    rw [hlast, List.append_nil]
    apply List.filter_congr
    intro e _
    cases he : e.base_key == flatpakBaseKey with
    | true => simp [he]
    | false => simp [he]

/-- C10 (witness): requests differing in path, method, host and headers but
agreeing on the query receive the same key; invalidating the fixed base key
wipes a cache write. -/
theorem c10_witness :
    FlatpakIndexStaticCache.make_key ⟨"/index/static", "GET", "h1", [("X", "1")], "label=app"⟩ =
      FlatpakIndexStaticCache.make_key ⟨"/other", "POST", "h2", [], "label=app"⟩ :=
  c10_flatpak_static_cache.1 ⟨"/index/static", "GET", "h1", [("X", "1")], "label=app"⟩
    ⟨"/other", "POST", "h2", [], "label=app"⟩ rfl

end PulpCache
